import Mathlib

/-!
Verification of the jiradashboard data pipeline against its specification.

The TypeScript/JavaScript sources are embedded shallowly:

* JS strings are Lean `String`s; `String.prototype.includes`,
  `toLowerCase`, `trim` and the default lexicographic comparison are
  modelled by executable char-list functions below (Lean's built-in
  `String.toLower`/`<` do not reduce in the kernel).
* JS numbers that hold story points are modelled as `ℚ` (no NaN: the
  upstream parsers map NaN to "absent").  Millisecond timestamps are `ℤ`.
* `Math.ceil(x / 86400000)` on an integer number of milliseconds is the
  exact rational ceiling, computed with Euclidean division.
* A JS `Date` is modelled by the calendar fields and the epoch-millisecond
  value that the engine reads from it (`getFullYear`, `getMonth`+1,
  `getDate`, `getTime`); the deployment parses ISO instants, and the model
  assumes the UTC and local calendar fields coincide.
* A JS `Map` is an insertion-ordered association list with unique keys;
  `Map.set` replaces in place, iteration follows insertion order.
-/

/-- Character-list lexicographic strict order: the comparison JS applies to
strings (`<`, `localeCompare` under the default locale on ASCII keys, and
`Array.prototype.sort()` on string keys compare code units left to right). -/
def charListLt : List Char → List Char → Bool
  | [], [] => false
  | [], _ :: _ => true
  | _ :: _, [] => false
  | a :: as, b :: bs => if a < b then true else if b < a then false else charListLt as bs

/-- JS string strict comparison `a < b`. -/
def strLt (a b : String) : Bool := charListLt a.data b.data

/-- JS string comparison `a <= b` (equivalently `localeCompare <= 0`). -/
def strLe (a b : String) : Bool := !(strLt b a)

/-- Prefix test on char lists (helper for substring containment). -/
def listPre : List Char → List Char → Bool
  | [], _ => true
  | _ :: _, [] => false
  | a :: as, b :: bs => a == b && listPre as bs

/-- Containment of the needle `n` somewhere inside the haystack. -/
def listInf (n : List Char) : List Char → Bool
  | [] => listPre n []
  | b :: bs => listPre n (b :: bs) || listInf n bs

/-- Model of `haystack.includes(needle)` from JS. -/
def strContains (haystack needle : String) : Bool := listInf needle.data haystack.data

/-- Model of `String.prototype.toLowerCase` (ASCII case folding). -/
def jsToLower (s : String) : String := String.mk (s.data.map Char.toLower)

/-- Whitespace test used by `String.prototype.trim`. -/
def jsIsWS (c : Char) : Bool := c == ' ' || c == '\t' || c == '\n' || c == '\r'

/-- Model of `String.prototype.trim`. -/
def jsTrim (s : String) : String :=
  String.mk (((s.data.dropWhile jsIsWS).reverse.dropWhile jsIsWS).reverse)

/-- Milliseconds in a day, the divisor `1000 * 60 * 60 * 24` in the source. -/
def dayMs : ℤ := 86400000

/-- Exact `Math.ceil (x / 86400000)` for an integer count `x` of
milliseconds: the ceiling is `-⌊-x / d⌋`, and `Int.ediv` by the positive
divisor is floor division. -/
def jsCeilDay (x : ℤ) : ℤ := -((-x).ediv 86400000)

/-- Floor of a rational (the denominator is positive, so `ediv` floors). -/
def qFloor (q : ℚ) : ℤ := q.num.ediv (q.den : ℤ)

/-- Model of `Math.round` (half-up, toward plus infinity). -/
def jsRound (q : ℚ) : ℤ := qFloor (q + 1 / 2)

/-- Decimal digit character. -/
def digitChar (n : ℕ) : Char := Char.ofNat (48 + n)

/-- Decimal digits of a natural number, fuel-driven. -/
def natDigits : ℕ → ℕ → List Char
  | 0, _ => []
  | f + 1, n => if n < 10 then [digitChar n] else natDigits f (n / 10) ++ [digitChar (n % 10)]

/-- Decimal rendering of a natural number, as JS template interpolation does. -/
def natToStr (n : ℕ) : String := String.mk (natDigits (n + 1) n)

/-- Decimal rendering of an integer. -/
def intToStr : ℤ → String
  | Int.ofNat n => natToStr n
  | Int.negSucc n => "-" ++ natToStr (n + 1)

/-- Model of `String(n).padStart(2, "0")` for the month/day fields. -/
def pad2 (n : ℕ) : String := if n < 10 then "0" ++ natToStr n else natToStr n

/-- Model of `parseInt(s, 10)` on the canonical digit strings the engine
generates for month keys (leading digits accumulate, parsing stops at the
first non-digit; the NaN result on an empty digit run is modelled as 0). -/
def jsParseNatAux : List Char → ℕ → ℕ
  | [], acc => acc
  | c :: cs, acc =>
    if 48 ≤ c.toNat && c.toNat ≤ 57 then jsParseNatAux cs (acc * 10 + (c.toNat - 48)) else acc

/-- Digit-run parser entry point. -/
def jsParseNat (s : String) : ℕ := jsParseNatAux s.data 0

/-- Model of `s.split(c)` on char lists. -/
def splitCharList (c : Char) : List Char → List (List Char)
  | [] => [[]]
  | a :: as =>
    let r := splitCharList c as
    if a == c then [] :: r
    else
      match r with
      | [] => [[a]]
      | h :: t => (a :: h) :: t

/-- Model of `monthKey.split("-")`. -/
def splitDash (s : String) : List String := (splitCharList '-' s.data).map String.mk

/-- English month names produced by
`new Date(year, month - 1).toLocaleString("default", ...)` in the engine;
the engine only feeds back months 1..12 parsed from its own keys. -/
def monthName : ℕ → String
  | 1 => "January"
  | 2 => "February"
  | 3 => "March"
  | 4 => "April"
  | 5 => "May"
  | 6 => "June"
  | 7 => "July"
  | 8 => "August"
  | 9 => "September"
  | 10 => "October"
  | 11 => "November"
  | 12 => "December"
  | _ => "Invalid Date"

/-- Generic model of `Array.prototype.findIndex`. -/
def firstIdx {α : Type} (p : α → Bool) : List α → Option ℕ
  | [] => none
  | a :: as => if p a then some 0 else (firstIdx p as).map (· + 1)

/-! ### Order facts about the string comparison -/

theorem charListLt_irrefl : ∀ l : List Char, charListLt l l = false := by
  intro l
  induction l with
  | nil => rfl
  | cons a as ih => simp [charListLt, ih]

theorem charListLt_asymm : ∀ {a b : List Char}, charListLt a b = true → charListLt b a = false := by
  intro a
  induction a with
  | nil => intro b h; cases b <;> simp_all [charListLt]
  | cons x xs ih =>
    intro b h
    cases b with
    | nil => simp [charListLt] at h
    | cons y ys =>
      simp only [charListLt] at h ⊢
      rcases lt_trichotomy x y with hxy | hxy | hxy
      · simp [hxy, not_lt_of_gt hxy]
      · subst hxy
        simp only [lt_irrefl, if_false] at h ⊢
        exact ih h
      · simp [hxy, not_lt_of_gt hxy] at h

theorem charListLt_trans : ∀ {a b c : List Char},
    charListLt a b = true → charListLt b c = true → charListLt a c = true := by
  intro a
  induction a with
  | nil =>
    intro b c hab hbc
    cases b <;> cases c <;> simp_all [charListLt]
  | cons x xs ih =>
    intro b c hab hbc
    cases b with
    | nil => simp [charListLt] at hab
    | cons y ys =>
      cases c with
      | nil => simp [charListLt] at hbc
      | cons z zs =>
        simp only [charListLt] at hab hbc ⊢
        rcases lt_trichotomy x y with hxy | hxy | hxy
        · rcases lt_trichotomy y z with hyz | hyz | hyz
          · simp [lt_trans hxy hyz]
          · subst hyz; simp [hxy]
          · simp [hyz, not_lt_of_gt hyz] at hbc
        · subst hxy
          rcases lt_trichotomy x z with hxz | hxz | hxz
          · simp [hxz]
          · subst hxz
            simp only [lt_irrefl, if_false] at hab hbc ⊢
            exact ih hab hbc
          · simp [hxz, not_lt_of_gt hxz] at hbc
        · simp [hxy, not_lt_of_gt hxy] at hab

theorem charListLt_eq_of_not : ∀ {a b : List Char},
    charListLt a b = false → charListLt b a = false → a = b := by
  intro a
  induction a with
  | nil => intro b h1 _; cases b <;> simp_all [charListLt]
  | cons x xs ih =>
    intro b h1 h2
    cases b with
    | nil => simp [charListLt] at h2
    | cons y ys =>
      simp only [charListLt] at h1 h2
      rcases lt_trichotomy x y with hxy | hxy | hxy
      · simp [hxy] at h1
      · subst hxy
        simp only [lt_irrefl, if_false] at h1 h2
        exact congrArg (x :: ·) (ih h1 h2)
      · simp [hxy] at h2

theorem strLt_asymm {a b : String} (h : strLt a b = true) : strLt b a = false :=
  charListLt_asymm h

theorem strLt_trans {a b c : String} (h1 : strLt a b = true) (h2 : strLt b c = true) :
    strLt a c = true :=
  charListLt_trans h1 h2

theorem strEq_of_nlt {a b : String} (h1 : strLt a b = false) (h2 : strLt b a = false) : a = b := by
  cases a with
  | mk da =>
    cases b with
    | mk db =>
      exact congrArg String.mk (charListLt_eq_of_not h1 h2)

theorem strLe_total (a b : String) : strLe a b = true ∨ strLe b a = true := by
  unfold strLe
  rcases h : strLt b a with _ | _
  · left; simp
  · right; simp [strLt_asymm h]

theorem strLe_trans {a b c : String} (h1 : strLe a b = true) (h2 : strLe b c = true) :
    strLe a c = true := by
  have h1x : strLt b a = false := by simpa [strLe] using h1
  have h2x : strLt c b = false := by simpa [strLe] using h2
  have hgoal : strLt c a = false := by
    rcases hbc : strLt b c with _ | _
    · have hb := strEq_of_nlt hbc h2x
      rw [← hb]
      exact h1x
    · rcases hca : strLt c a with _ | _
      · rfl
      · exact absurd (strLt_trans hbc hca) (by simp [h1x])
  simp [strLe, hgoal]

theorem strLe_antisymm {a b : String} (h1 : strLe a b = true) (h2 : strLe b a = true) : a = b := by
  unfold strLe at h1 h2
  simp only [Bool.not_eq_true'] at h1 h2
  exact strEq_of_nlt h2 h1

theorem strLt_of_le_of_ne {a b : String} (h1 : strLe a b = true) (h2 : a ≠ b) :
    strLt a b = true := by
  unfold strLe at h1
  simp only [Bool.not_eq_true'] at h1
  rcases h : strLt a b with _ | _
  · exact absurd (strEq_of_nlt h h1) h2
  · rfl

/-! ### Sign facts about the day-ceiling -/

theorem jsCeilDay_pos {x : ℤ} (h : 0 < x) : 1 ≤ jsCeilDay x := by
  have h1 : Int.ediv (-x) 86400000 < 0 := Int.ediv_neg' (by omega) (by norm_num)
  unfold jsCeilDay
  omega

theorem jsCeilDay_nonneg {x : ℤ} (h : 0 ≤ x) : 0 ≤ jsCeilDay x := by
  rcases eq_or_lt_of_le h with heq | hlt
  · rw [← heq]
    unfold jsCeilDay
    decide
  · have := jsCeilDay_pos hlt
    omega

theorem jsCeilDay_nonpos {x : ℤ} (h : x ≤ 0) : jsCeilDay x ≤ 0 := by
  have h1 : 0 ≤ Int.ediv (-x) 86400000 := Int.ediv_nonneg (by omega) (by norm_num)
  unfold jsCeilDay
  omega

/-! ### Data model -/

/-- The face of a JS `Date` that the pipeline reads: calendar fields
(`getFullYear`, `getMonth` + 1, `getDate`) and the epoch-millisecond value
(`getTime`, also what `<`/`>` on dates compare).  ISO instants are assumed
UTC so the calendar fields of `toISOString` and the local getters agree. -/
structure JDate where
  year : ℤ
  month : ℕ
  day : ℕ
  time : ℤ
deriving DecidableEq

/-- RawJiraTicket after row normalization (types/jira-data.ts): the `created`
date is already parsed (the normalizer drops rows whose `created` fails to
parse, and `DataTransformationUtils.parseDate` would throw on them), and the
optional numeric story points carry no NaN (`parseNumber` maps NaN to
absent). -/
structure RawTicketU where
  key : String
  summary : String
  issueType : String
  status : String
  parent : Option String
  storyPoints : Option ℚ
  created : JDate
  resolved : Option JDate
  sprints : List String
  originTicketType : Option String
deriving DecidableEq

/-- ProcessedTicket (types/jira-data.ts). -/
structure ProcessedTicket where
  key : String
  summary : String
  issueType : String
  status : String
  parent : Option String
  storyPoints : ℚ
  createdDate : JDate
  resolvedDate : Option JDate
  duration : Option ℤ
  sprintCount : ℕ
  isEscapedBug : Bool
  summaryLength : ℕ
deriving DecidableEq

/-- Epic aggregate (types/jira-data.ts). -/
structure Epic where
  key : String
  name : String
  ticketCount : ℕ
  totalStoryPoints : ℚ
  completedTickets : ℕ
deriving DecidableEq

/-- JS `value || 0`: `undefined` and `0` are falsy and give `0`, everything
else (negative values included) passes through. -/
def jsOrZero (v : Option ℚ) : ℚ :=
  match v with
  | none => 0
  | some q => if q = 0 then 0 else q

namespace DataTransformationUtils

/-- `DataTransformationUtils.calculateDuration` (src/types, part_003):
`Math.ceil(Math.abs(end - start) / (1000*60*60*24))` on the two dates'
millisecond values. -/
def calculateDuration (startMs endMs : ℤ) : ℤ := jsCeilDay |endMs - startMs|

/-- `DataTransformationUtils.countSprints`: size of the `Set` of sprint
labels that are truthy and have truthy `trim()`. -/
def countSprints (sprints : List String) : ℕ :=
  ((sprints.filter (fun s => !(s == "") && !(jsTrim s == ""))).dedup).length

/-- `DataTransformationUtils.isEscapedBug`: lower-cased issue type equals
"bug" and `originTicketType` is present with a non-blank trim.  (No
indicator-substring test here, unlike the worker.) -/
def isEscapedBug (t : RawTicketU) : Bool :=
  jsToLower t.issueType == "bug" &&
    (match t.originTicketType with
     | none => false
     | some o => !(jsTrim o == ""))

/-- `DataTransformationUtils.normalizeStoryPoints`: null/undefined/empty
(and NaN, absorbed into `none` here) give 0; a parsed negative number gives
0; otherwise the number itself. -/
def normalizeStoryPoints (v : Option ℚ) : ℚ :=
  match v with
  | none => 0
  | some p => if p < 0 then 0 else p

/-- `DataTransformationUtils.transformTicket`. -/
def transformTicket (t : RawTicketU) : ProcessedTicket :=
  { key := t.key
    summary := t.summary
    issueType := t.issueType
    status := t.status
    parent := t.parent
    storyPoints := jsOrZero t.storyPoints
    createdDate := t.created
    resolvedDate := t.resolved
    duration := t.resolved.map (fun r => calculateDuration t.created.time r.time)
    sprintCount := countSprints t.sprints
    isEscapedBug := isEscapedBug t
    summaryLength := t.summary.length }

end DataTransformationUtils

/-! ### Insertion-ordered map with string keys, the shape of a JS `Map` -/

/-- JS `Map<string, Epic>` as an association list in insertion order. -/
abbrev EpicMap := List (String × Epic)

/-- `Map.prototype.has`. -/
def hasE (m : EpicMap) (k : String) : Bool := m.any (fun p => p.1 == k)

/-- `Map.prototype.get`, first (unique) matching key. -/
def lookupE (m : EpicMap) (k : String) : Option Epic :=
  (m.find? (fun p => p.1 == k)).map (fun p => p.2)

/-- `Map.prototype.set`: replace in place if present, else append. -/
def setE (m : EpicMap) (k : String) (v : Epic) : EpicMap :=
  if hasE m k then m.map (fun p => if p.1 == k then (k, v) else p) else m ++ [(k, v)]

/-- Mutation of the entry at `k` when present (`map.get(k)!` followed by
in-place field updates); no effect when the key is absent. -/
def updateE (m : EpicMap) (k : String) (f : Epic → Epic) : EpicMap :=
  m.map (fun p => if p.1 == k then (p.1, f p.2) else p)

namespace DataTransformationUtils

/-- The per-member mutation in `buildEpics`: `ticketCount++`,
`totalStoryPoints += storyPoints`, `completedTickets++` iff the lower-cased
status is "done" or "closed" ("resolved" is absent from this check in the
source). -/
def updEpic (e : Epic) (t : ProcessedTicket) : Epic :=
  { e with
    ticketCount := e.ticketCount + 1
    totalStoryPoints := e.totalStoryPoints + t.storyPoints
    completedTickets :=
      if jsToLower t.status == "done" || jsToLower t.status == "closed" then
        e.completedTickets + 1
      else e.completedTickets }

/-- First pass of `buildEpics`: every epic-typed ticket seeds a
zero-initialized entry keyed by its own key. -/
def pass1Map (ts : List ProcessedTicket) : EpicMap :=
  (ts.filter (fun t => jsToLower t.issueType == "epic")).foldl
    (fun m t => setE m t.key ⟨t.key, t.summary, 0, 0, 0⟩) []

/-- Second pass of `buildEpics`: `if (ticket.parent && epicMap.has(ticket.parent))`
then mutate that entry (`""` is falsy, hence skipped). -/
def pass2Step (m : EpicMap) (t : ProcessedTicket) : EpicMap :=
  match t.parent with
  | none => m
  | some p => if p == "" then m else if hasE m p then updateE m p (fun e => updEpic e t) else m

/-- The populated map after both passes of `buildEpics`. -/
def buildEpicsMap (ts : List ProcessedTicket) : EpicMap :=
  ts.foldl pass2Step (pass1Map ts)

/-- `DataTransformationUtils.buildEpics`: `Array.from(epicMap.values())` —
note: no `ticketCount > 0` filter in this implementation. -/
def buildEpics (ts : List ProcessedTicket) : List Epic :=
  (buildEpicsMap ts).map (fun p => p.2)

end DataTransformationUtils

namespace Worker

/-- `calculateDuration` in public/dataProcessor.worker.js: `undefined`
without a resolved date, otherwise `Math.max(0, Math.ceil(diff / dayMs))`
on the signed difference. -/
def calculateDuration (createdMs : ℤ) : Option ℤ → Option ℤ
  | none => none
  | some resolvedMs => some (max 0 (jsCeilDay (resolvedMs - createdMs)))

/-- The indicator substrings of `isEscapedBugTicket`. -/
def escapedBugIndicators : List String :=
  ["regression testing", "uat", "user acceptance testing",
   "production", "customer", "external", "qa", "testing"]

/-- `isEscapedBugTicket` in the worker: bug-typed, origin present and
truthy after lower-casing, and the lowered origin contains one of the
indicator substrings. -/
def isEscapedBugTicket (t : RawTicketU) : Bool :=
  if !(jsToLower t.issueType == "bug") then false
  else
    match t.originTicketType with
    | none => false
    | some o =>
      let ol := jsToLower o
      if ol == "" then false
      else escapedBugIndicators.any (fun ind => strContains ol ind)

/-- `isTicketCompleted` in the worker: lower-cased status is one of
done/closed/resolved. -/
def isTicketCompleted (s : String) : Bool :=
  ["done", "closed", "resolved"].contains (jsToLower s)

/-- `findEpicName` in the worker: summary of the epic-typed raw ticket with
that key; `summary || null` makes a blank summary fall through to null. -/
def findEpicName (k : String) (rts : List RawTicketU) : Option String :=
  match rts.find? (fun r => r.key == k && jsToLower r.issueType == "epic") with
  | none => none
  | some r => if r.summary == "" then none else some r.summary

/-- The per-member mutation in `buildEpicAggregations`, identical to the
main-thread one except that completion uses `isTicketCompleted`. -/
def updEpicW (e : Epic) (t : ProcessedTicket) : Epic :=
  { e with
    ticketCount := e.ticketCount + 1
    totalStoryPoints := e.totalStoryPoints + t.storyPoints
    completedTickets :=
      if isTicketCompleted t.status then e.completedTickets + 1 else e.completedTickets }

/-- Initialization step of `buildEpicAggregations`: create an entry for a
truthy unseen parent (named by `findEpicName(...) || parent`), then for an
epic-typed ticket whose own key is unseen. -/
def initStep (rts : List RawTicketU) (m : EpicMap) (t : ProcessedTicket) : EpicMap :=
  let m1 :=
    match t.parent with
    | none => m
    | some p =>
      if p == "" then m
      else if hasE m p then m
      else m ++ [(p, ⟨p, (findEpicName p rts).getD p, 0, 0, 0⟩)]
  if jsToLower t.issueType == "epic" && !(hasE m1 t.key) then
    m1 ++ [(t.key, ⟨t.key, t.summary, 0, 0, 0⟩)]
  else m1

/-- Aggregation step of `buildEpicAggregations`. -/
def aggStep (m : EpicMap) (t : ProcessedTicket) : EpicMap :=
  match t.parent with
  | none => m
  | some p => if p == "" then m else if hasE m p then updateE m p (fun e => updEpicW e t) else m

/-- `buildEpicAggregations` in the worker: initialize, aggregate, then keep
only groupings with `ticketCount > 0`. -/
def buildEpicAggregations (pts : List ProcessedTicket) (rts : List RawTicketU) : List Epic :=
  let m0 := pts.foldl (initStep rts) []
  let m1 := pts.foldl aggStep m0
  (m1.map (fun p => p.2)).filter (fun e => decide (0 < e.ticketCount))

end Worker

/-! ### Lookup facts about the map operations -/

theorem hasE_eq_isSome (m : EpicMap) (k : String) : hasE m k = (lookupE m k).isSome := by
  induction m with
  | nil => rfl
  | cons p ps ih =>
    unfold hasE lookupE at ih ⊢
    rcases h : (p.1 == k) with _ | _
    · simpa [List.any_cons, List.find?, h] using ih
    · simp [List.any_cons, List.find?, h]

theorem lookupE_updateE_self (m : EpicMap) (k : String) (f : Epic → Epic) :
    lookupE (updateE m k f) k = (lookupE m k).map f := by
  induction m with
  | nil => rfl
  | cons p ps ih =>
    unfold lookupE updateE at ih ⊢
    rcases h : (p.1 == k) with _ | _
    · simpa [List.find?, h] using ih
    · simp [List.find?, h]

theorem lookupE_updateE_ne (m : EpicMap) {k' k : String} (hne : k' ≠ k) (f : Epic → Epic) :
    lookupE (updateE m k' f) k = lookupE m k := by
  induction m with
  | nil => rfl
  | cons p ps ih =>
    unfold lookupE updateE at ih ⊢
    rcases h : (p.1 == k') with _ | _
    · rcases h2 : (p.1 == k) with _ | _
      · simpa [List.find?, h, h2] using ih
      · simp [List.find?, h, h2]
    · have hp : p.1 = k' := by simpa using h
      have h2 : (p.1 == k) = false := by simp [hp, hne]
      have h2x : (k' == k) = false := by simp [hne]
      simpa [List.find?, h, h2, h2x] using ih

theorem lookupE_aggstep_none {step : EpicMap → ProcessedTicket → EpicMap}
    (upd : Epic → ProcessedTicket → Epic)
    (hstep : ∀ m t, step m t =
      match t.parent with
      | none => m
      | some p => if p == "" then m else if hasE m p then updateE m p (fun e => upd e t) else m)
    (m : EpicMap) (t : ProcessedTicket) (k : String) (h : lookupE m k = none) :
    lookupE (step m t) k = none := by
  rw [hstep]
  rcases hpar : t.parent with _ | p
  · exact h
  · by_cases hpe : p = ""
    · simp [hpe, h]
    · have hpe2 : (p == "") = false := by simp [hpe]
      by_cases hpk : p = k
      · subst hpk
        have hh : hasE m p = false := by rw [hasE_eq_isSome, h]; rfl
        simp [hpe2, hh, h]
      · cases hhas : hasE m p
        · simp [hpe2, hhas, h]
        · simp [hpe2, hhas, lookupE_updateE_ne m hpk, h]

theorem lookupE_aggstep_some {step : EpicMap → ProcessedTicket → EpicMap}
    (upd : Epic → ProcessedTicket → Epic)
    (hstep : ∀ m t, step m t =
      match t.parent with
      | none => m
      | some p => if p == "" then m else if hasE m p then updateE m p (fun e => upd e t) else m)
    (m : EpicMap) (t : ProcessedTicket) (k : String) (e : Epic)
    (hk : k ≠ "") (h : lookupE m k = some e) :
    lookupE (step m t) k = some (if t.parent == some k then upd e t else e) := by
  rw [hstep]
  rcases hpar : t.parent with _ | p
  · simp [h]
  · by_cases hpk : p = k
    · subst hpk
      have hpe2 : (p == "") = false := by simp [hk]
      have hh : hasE m p = true := by rw [hasE_eq_isSome, h]; rfl
      simp [hpe2, hh, lookupE_updateE_self, h]
    · have hne : (some p == some k) = false := by simp [hpk]
      rw [hne]
      simp only [Bool.false_eq_true, if_false]
      by_cases hpe : p = ""
      · simp [hpe, h]
      · have hpe2 : (p == "") = false := by simp [hpe]
        cases hhas : hasE m p
        · simp [hpe2, hhas, h]
        · simp [hpe2, hhas, lookupE_updateE_ne m hpk, h]

theorem lookupE_aggfold_none {step : EpicMap → ProcessedTicket → EpicMap}
    (upd : Epic → ProcessedTicket → Epic)
    (hstep : ∀ m t, step m t =
      match t.parent with
      | none => m
      | some p => if p == "" then m else if hasE m p then updateE m p (fun e => upd e t) else m) :
    ∀ (ts : List ProcessedTicket) (m : EpicMap) (k : String),
      lookupE m k = none → lookupE (ts.foldl step m) k = none := by
  intro ts
  induction ts with
  | nil => intro m k h; simpa using h
  | cons t rest ih =>
    intro m k h
    rw [List.foldl_cons]
    exact ih (step m t) k (lookupE_aggstep_none upd hstep m t k h)

theorem lookupE_aggfold_some {step : EpicMap → ProcessedTicket → EpicMap}
    (upd : Epic → ProcessedTicket → Epic)
    (hstep : ∀ m t, step m t =
      match t.parent with
      | none => m
      | some p => if p == "" then m else if hasE m p then updateE m p (fun e => upd e t) else m) :
    ∀ (ts : List ProcessedTicket) (m : EpicMap) (k : String) (e : Epic), k ≠ "" →
      lookupE m k = some e →
      lookupE (ts.foldl step m) k =
        some ((ts.filter (fun t => t.parent == some k)).foldl upd e) := by
  intro ts
  induction ts with
  | nil => intro m k e _ h; simpa using h
  | cons t rest ih =>
    intro m k e hk h
    rw [List.foldl_cons]
    have hs := lookupE_aggstep_some upd hstep m t k e hk h
    rcases hfil : (t.parent == some k) with _ | _
    · rw [List.filter_cons_of_neg (by simp [hfil])]
      rw [hfil] at hs
      simp only [Bool.false_eq_true, if_false] at hs
      exact ih (step m t) k e hk hs
    · rw [List.filter_cons_of_pos (by simp [hfil])]
      rw [hfil] at hs
      simp only [if_true] at hs
      rw [List.foldl_cons]
      exact ih (step m t) k (upd e t) hk hs

theorem foldl_updEpic_completed :
    ∀ (ms : List ProcessedTicket) (e : Epic),
      (ms.foldl DataTransformationUtils.updEpic e).completedTickets =
        e.completedTickets +
          (ms.filter
            (fun t => jsToLower t.status == "done" || jsToLower t.status == "closed")).length := by
  intro ms
  induction ms with
  | nil => intro e; simp
  | cons t rest ih =>
    intro e
    rw [List.foldl_cons, ih]
    rcases hc : (jsToLower t.status == "done" || jsToLower t.status == "closed") with _ | _
    · rw [List.filter_cons_of_neg (by simp [hc])]
      simp [DataTransformationUtils.updEpic, hc]
    · rw [List.filter_cons_of_pos (by simp [hc])]
      simp only [DataTransformationUtils.updEpic, hc, if_true, List.length_cons]
      omega

theorem foldl_updEpic_count :
    ∀ (ms : List ProcessedTicket) (e : Epic),
      (ms.foldl DataTransformationUtils.updEpic e).ticketCount = e.ticketCount + ms.length := by
  intro ms
  induction ms with
  | nil => intro e; simp
  | cons t rest ih =>
    intro e
    rw [List.foldl_cons, ih]
    simp only [DataTransformationUtils.updEpic, List.length_cons]
    omega

/-! ### Insights engine (src/services/InsightsEngine.ts) -/

namespace InsightsEngine

/-- Day bucket entry: the `YYYY-MM-DD` key string and its count (the source
re-wraps the key in a `Date`; under the UTC assumption the key carries the
same information and ties compare identically). -/
structure DayStat where
  date : String
  count : ℕ
deriving DecidableEq

/-- One point of a monthly bug-trend series. -/
structure MonthlyBugTrend where
  month : String
  year : ℤ
  created : ℕ
  closed : ℕ
  cumulativeOpen : ℤ
deriving DecidableEq

/-- Result record of `generateTicketInsights`. -/
structure TicketInsightsR where
  mostSprintChanges : ProcessedTicket
  longestDuration : Option ProcessedTicket
  longestSummary : ProcessedTicket
  shortestSummary : ProcessedTicket
  busiestCreationDays : List DayStat
  busiestClosureDays : List DayStat
deriving DecidableEq

/-- All-bug statistics block of `generateBugInsights`. -/
structure AllBugStats where
  totalCreated : ℕ
  totalClosed : ℕ
  totalOpen : ℕ
  averageResolutionTime : Option ℤ
deriving DecidableEq

/-- Escaped-bug statistics block of `generateBugInsights`. -/
structure EscapedStats where
  totalCreated : ℕ
  totalClosed : ℕ
  totalOpen : ℕ
  percentageOfAllBugs : ℤ
deriving DecidableEq

/-- Result record of `generateBugInsights`. -/
structure BugInsightsR where
  allBugStats : AllBugStats
  escapedBugStats : EscapedStats
  monthlyTrends : List MonthlyBugTrend
  allBugMonthlyTrends : List MonthlyBugTrend
  oldestOpenBug : Option ProcessedTicket
  mostRecentBug : Option ProcessedTicket
  bugsByStatus : List (String × ℕ)
deriving DecidableEq

/-- `isTicketClosed`: lower-cased status in the closed set. -/
def isTicketClosed (s : String) : Bool := ["done", "closed", "resolved"].contains (jsToLower s)

/-- The comparator of `rankEpicsByTicketCount` as a before-or-equal
relation: larger ticket count first, ties by ascending key comparison. -/
def epicLeByCount (a b : Epic) : Prop :=
  b.ticketCount < a.ticketCount ∨ (a.ticketCount = b.ticketCount ∧ strLe a.key b.key = true)

/-- The comparator of `rankEpicsByStoryPoints` as a before-or-equal
relation. -/
def epicLeBySP (a b : Epic) : Prop :=
  b.totalStoryPoints < a.totalStoryPoints ∨
    (a.totalStoryPoints = b.totalStoryPoints ∧ strLe a.key b.key = true)

instance : DecidableRel epicLeByCount := fun a b => by unfold epicLeByCount; infer_instance

instance : DecidableRel epicLeBySP := fun a b => by unfold epicLeBySP; infer_instance

instance : IsTotal Epic epicLeByCount := by
  constructor
  intro a b
  unfold epicLeByCount
  rcases lt_trichotomy b.ticketCount a.ticketCount with h | h | h
  · exact Or.inl (Or.inl h)
  · rcases strLe_total a.key b.key with hk | hk
    · exact Or.inl (Or.inr ⟨h.symm, hk⟩)
    · exact Or.inr (Or.inr ⟨h, hk⟩)
  · exact Or.inr (Or.inl h)

instance : IsTrans Epic epicLeByCount := by
  constructor
  intro a b c h1 h2
  unfold epicLeByCount at h1 h2 ⊢
  rcases h1 with h1 | ⟨h1e, h1k⟩
  · rcases h2 with h2 | ⟨h2e, h2k⟩
    · exact Or.inl (lt_trans h2 h1)
    · exact Or.inl (h2e ▸ h1)
  · rcases h2 with h2 | ⟨h2e, h2k⟩
    · exact Or.inl (h1e ▸ h2)
    · exact Or.inr ⟨h1e.trans h2e, strLe_trans h1k h2k⟩

instance : IsTotal Epic epicLeBySP := by
  constructor
  intro a b
  unfold epicLeBySP
  rcases lt_trichotomy b.totalStoryPoints a.totalStoryPoints with h | h | h
  · exact Or.inl (Or.inl h)
  · rcases strLe_total a.key b.key with hk | hk
    · exact Or.inl (Or.inr ⟨h.symm, hk⟩)
    · exact Or.inr (Or.inr ⟨h, hk⟩)
  · exact Or.inr (Or.inl h)

instance : IsTrans Epic epicLeBySP := by
  constructor
  intro a b c h1 h2
  unfold epicLeBySP at h1 h2 ⊢
  rcases h1 with h1 | ⟨h1e, h1k⟩
  · rcases h2 with h2 | ⟨h2e, h2k⟩
    · exact Or.inl (lt_trans h2 h1)
    · exact Or.inl (h2e ▸ h1)
  · rcases h2 with h2 | ⟨h2e, h2k⟩
    · exact Or.inl (h1e ▸ h2)
    · exact Or.inr ⟨h1e.trans h2e, strLe_trans h1k h2k⟩

/-- `rankEpicsByTicketCount`: sort a copy by the comparator, take 3.  The
JS engine-sorted permutation is canonical whenever the comparator never
ties distinct elements, which holds on grouping lists with distinct keys
(the situation of every claim about the rankings). -/
def rankEpicsByTicketCount (epics : List Epic) : List Epic :=
  (List.insertionSort epicLeByCount epics).take 3

/-- `rankEpicsByStoryPoints`: sort a copy by the comparator, take 3. -/
def rankEpicsByStoryPoints (epics : List Epic) : List Epic :=
  (List.insertionSort epicLeBySP epics).take 3

/-- Reducer body of `findTicketWithMostSprintChanges`. -/
def mostSprintStep (m c : ProcessedTicket) : ProcessedTicket :=
  if m.sprintCount < c.sprintCount then c
  else if c.sprintCount == m.sprintCount then (if strLt c.key m.key then c else m) else m

/-- Reducer body of `findLongestDurationTicket` (`duration || 0` on both
sides). -/
def longestDurationStep (m c : ProcessedTicket) : ProcessedTicket :=
  if m.duration.getD 0 < c.duration.getD 0 then c
  else if c.duration.getD 0 == m.duration.getD 0 then (if strLt c.key m.key then c else m) else m

/-- `findLongestDurationTicket`: null when no ticket has a defined
duration, otherwise a reduce over those that do. -/
def findLongestDurationTicket (ts : List ProcessedTicket) : Option ProcessedTicket :=
  match ts.filter (fun t => t.duration.isSome) with
  | [] => none
  | t :: rest => some (rest.foldl longestDurationStep t)

/-- Reducer body of `findLongestSummaryTicket`. -/
def longestSummaryStep (m c : ProcessedTicket) : ProcessedTicket :=
  if m.summaryLength < c.summaryLength then c
  else if c.summaryLength == m.summaryLength then (if strLt c.key m.key then c else m) else m

/-- Reducer body of `findShortestSummaryTicket`. -/
def shortestSummaryStep (m c : ProcessedTicket) : ProcessedTicket :=
  if c.summaryLength < m.summaryLength then c
  else if c.summaryLength == m.summaryLength then (if strLt c.key m.key then c else m) else m

/-- `YYYY-MM-DD` key from `toISOString().split("T")[0]` (UTC assumption). -/
def dayKey (d : JDate) : String :=
  intToStr d.year ++ "-" ++ pad2 d.month ++ "-" ++ pad2 d.day

/-- One `Map`-increment of a day/status histogram
(`map.set(k, (map.get(k) || 0) + 1)`). -/
def bump (m : List (String × ℕ)) (k : String) : List (String × ℕ) :=
  if m.any (fun p => p.1 == k) then m.map (fun p => if p.1 == k then (p.1, p.2 + 1) else p)
  else m ++ [(k, 1)]

/-- Day-bucket comparator: count descending, ties by more recent day first
(`b.date.getTime() - a.date.getTime()`, which on `YYYY-MM-DD` keys is the
string comparison). -/
def dayStatLe (a b : DayStat) : Prop :=
  b.count < a.count ∨ (a.count = b.count ∧ strLe b.date a.date = true)

instance : DecidableRel dayStatLe := fun a b => by unfold dayStatLe; infer_instance

instance : IsTotal DayStat dayStatLe := by
  constructor
  intro a b
  unfold dayStatLe
  rcases lt_trichotomy b.count a.count with h | h | h
  · exact Or.inl (Or.inl h)
  · rcases strLe_total b.date a.date with hk | hk
    · exact Or.inl (Or.inr ⟨h.symm, hk⟩)
    · exact Or.inr (Or.inr ⟨h, hk⟩)
  · exact Or.inr (Or.inl h)

instance : IsTrans DayStat dayStatLe := by
  constructor
  intro a b c h1 h2
  unfold dayStatLe at h1 h2 ⊢
  rcases h1 with h1 | ⟨h1e, h1k⟩
  · rcases h2 with h2 | ⟨h2e, h2k⟩
    · exact Or.inl (lt_trans h2 h1)
    · exact Or.inl (h2e ▸ h1)
  · rcases h2 with h2 | ⟨h2e, h2k⟩
    · exact Or.inl (h1e ▸ h2)
    · exact Or.inr ⟨h1e.trans h2e, strLe_trans h2k h1k⟩

/-- `findBusiestCreationDays`: bucket by creation day, sort, top 5. -/
def findBusiestCreationDays (ts : List ProcessedTicket) : List DayStat :=
  (List.insertionSort dayStatLe
    (((ts.map (fun t => dayKey t.createdDate)).foldl bump []).map
      (fun p => DayStat.mk p.1 p.2))).take 5

/-- `findBusiestClosureDays`: bucket by resolution day where defined,
sort, top 5. -/
def findBusiestClosureDays (ts : List ProcessedTicket) : List DayStat :=
  (List.insertionSort dayStatLe
    (((ts.filterMap (fun t => t.resolvedDate.map dayKey)).foldl bump []).map
      (fun p => DayStat.mk p.1 p.2))).take 5

/-- `getMonthKey`: `YYYY-MM` with a zero-padded month. -/
def getMonthKey (d : JDate) : String := intToStr d.year ++ "-" ++ pad2 d.month

/-- Key set of the monthly `Map`: every month that received a created or a
closed increment (dedup models key uniqueness; the subsequent sort makes
insertion order irrelevant). -/
def monthKeysOf (bugs : List ProcessedTicket) : List String :=
  ((bugs.map (fun b => getMonthKey b.createdDate)) ++
    (bugs.filterMap (fun b => b.resolvedDate.map getMonthKey))).dedup

/-- String order as a relation for `Array.prototype.sort()` on keys. -/
def strLeP (a b : String) : Prop := strLe a b = true

instance : DecidableRel strLeP := fun a b => by unfold strLeP; infer_instance

instance : IsTotal String strLeP := ⟨fun a b => strLe_total a b⟩

instance : IsTrans String strLeP := ⟨fun _ _ _ h1 h2 => strLe_trans h1 h2⟩

/-- Created count of a month bucket. -/
def createdCountIn (bugs : List ProcessedTicket) (k : String) : ℕ :=
  (bugs.filter (fun b => getMonthKey b.createdDate == k)).length

/-- Closed count of a month bucket. -/
def closedCountIn (bugs : List ProcessedTicket) (k : String) : ℕ :=
  (bugs.filter (fun b => (b.resolvedDate.map getMonthKey) == some k)).length

/-- `parseInt(parts[0], 10)` of a month key. -/
def yearOf (k : String) : ℤ := (jsParseNat (((splitDash k).get? 0).getD "") : ℤ)

/-- `parseInt(parts[1], 10)` of a month key. -/
def monthNumOf (k : String) : ℕ := jsParseNat (((splitDash k).get? 1).getD "")

/-- The mapping pass over the sorted month keys: the mutable `cumulativeOpen`
accumulator adds `created - closed` unclamped, and each emitted point clamps
only its own displayed value with `Math.max(0, cumulativeOpen)`. -/
def trendPoints (bugs : List ProcessedTicket) : ℤ → List String → List MonthlyBugTrend
  | _, [] => []
  | cum, k :: ks =>
    let c := createdCountIn bugs k
    let cl := closedCountIn bugs k
    let cum2 := cum + (c : ℤ) - (cl : ℤ)
    { month := monthName (monthNumOf k)
      year := yearOf k
      created := c
      closed := cl
      cumulativeOpen := max 0 cum2 } :: trendPoints bugs cum2 ks

/-- `calculateMonthlyBugTrends`. -/
def calculateMonthlyBugTrends (bugs : List ProcessedTicket) : List MonthlyBugTrend :=
  trendPoints bugs 0 (List.insertionSort strLeP (monthKeysOf bugs))

/-- `calculateAverageResolutionTime`: mean of defined durations among the
given closed bugs, `Math.round`ed; null when none has a duration. -/
def calculateAverageResolutionTime (closedBugs : List ProcessedTicket) : Option ℤ :=
  let wd := closedBugs.filter (fun b => b.duration.isSome)
  if wd.length = 0 then none
  else some (jsRound ((((wd.map (fun b => b.duration.getD 0)).sum : ℤ) : ℚ) / (wd.length : ℚ)))

/-- Reducer body of `findOldestOpenBug`. -/
def oldestStep (o c : ProcessedTicket) : ProcessedTicket :=
  if c.createdDate.time < o.createdDate.time then c
  else if c.createdDate.time == o.createdDate.time then (if strLt c.key o.key then c else o) else o

/-- `findOldestOpenBug`. -/
def findOldestOpenBug : List ProcessedTicket → Option ProcessedTicket
  | [] => none
  | t :: ts => some (ts.foldl oldestStep t)

/-- Reducer body of `findMostRecentBug`. -/
def newestStep (o c : ProcessedTicket) : ProcessedTicket :=
  if o.createdDate.time < c.createdDate.time then c
  else if c.createdDate.time == o.createdDate.time then (if strLt c.key o.key then c else o) else o

/-- `findMostRecentBug`. -/
def findMostRecentBug : List ProcessedTicket → Option ProcessedTicket
  | [] => none
  | t :: ts => some (ts.foldl newestStep t)

/-- Status-histogram comparator: count descending only (the source's
comparator returns `b.count - a.count`; tie order among equal counts is not
observed by any claim). -/
def statusCountLe (a b : String × ℕ) : Prop := b.2 ≤ a.2

instance : DecidableRel statusCountLe := fun a b => by unfold statusCountLe; infer_instance

instance : IsTotal (String × ℕ) statusCountLe := ⟨fun a b => Nat.le_total b.2 a.2⟩

instance : IsTrans (String × ℕ) statusCountLe :=
  ⟨fun _ _ _ h1 h2 => Nat.le_trans h2 h1⟩

/-- `calculateBugsByStatus`. -/
def calculateBugsByStatus (bugs : List ProcessedTicket) : List (String × ℕ) :=
  List.insertionSort statusCountLe ((bugs.map (fun b => b.status)).foldl bump [])

/-- `generateTicketInsights`: throws (`Except.error`) on an empty ticket
set, otherwise computes all six lookups (the reduce-based ones start from
the head, as `Array.prototype.reduce` without an initial value does). -/
def generateTicketInsights (l : List ProcessedTicket) : Except String TicketInsightsR :=
  match l with
  | [] => Except.error "No tickets available for analysis"
  | t :: ts =>
    Except.ok
      { mostSprintChanges := ts.foldl mostSprintStep t
        longestDuration := findLongestDurationTicket (t :: ts)
        longestSummary := ts.foldl longestSummaryStep t
        shortestSummary := ts.foldl shortestSummaryStep t
        busiestCreationDays := findBusiestCreationDays (t :: ts)
        busiestClosureDays := findBusiestClosureDays (t :: ts) }

/-- `generateBugInsights`. -/
def generateBugInsights (l : List ProcessedTicket) : BugInsightsR :=
  let allBugs := l.filter (fun t => jsToLower t.issueType == "bug")
  let escapedBugs := l.filter (fun t => t.isEscapedBug)
  let allBugsClosed := allBugs.filter (fun b => isTicketClosed b.status)
  let allBugsOpen := allBugs.filter (fun b => !(isTicketClosed b.status))
  let escapedClosed := escapedBugs.filter (fun b => isTicketClosed b.status)
  let escapedOpen := escapedBugs.filter (fun b => !(isTicketClosed b.status))
  { allBugStats :=
      ⟨allBugs.length, allBugsClosed.length, allBugsOpen.length,
        calculateAverageResolutionTime allBugsClosed⟩
    escapedBugStats :=
      ⟨escapedBugs.length, escapedClosed.length, escapedOpen.length,
        if 0 < allBugs.length then
          jsRound ((escapedBugs.length : ℚ) / (allBugs.length : ℚ) * 100)
        else 0⟩
    monthlyTrends := calculateMonthlyBugTrends escapedBugs
    allBugMonthlyTrends := calculateMonthlyBugTrends allBugs
    oldestOpenBug := findOldestOpenBug allBugsOpen
    mostRecentBug := findMostRecentBug allBugs
    bugsByStatus := calculateBugsByStatus allBugs }

end InsightsEngine

/-! ### Column resolver (XLSXParserService.createColumnMapping) -/

/-- Canonical ticket fields of the synonym table, in declaration order. -/
inductive JField where
  | key
  | summary
  | issueType
  | status
  | parent
  | parentKey
  | parentSummary
  | team
  | storyPoints
  | created
  | resolved
  | sprints
  | originTicketType
deriving DecidableEq

/-- The `COLUMN_MAPPINGS` synonym table of `XLSXParserService`. -/
def synonymsOf : JField → List String
  | .key => ["key", "issue key", "ticket key", "id"]
  | .summary => ["summary", "title", "description"]
  | .issueType => ["issue type", "type", "issuetype"]
  | .status => ["status", "state"]
  | .parent => ["parent", "epic link", "epic"]
  | .parentKey => ["parent key"]
  | .parentSummary => ["parent summary", "epic summary", "parent title"]
  | .team =>
    ["custom field (team (migrated))", "team (migrated)", "team", "custom field (team)"]
  | .storyPoints => ["story points", "points", "estimate", "story point estimate"]
  | .created => ["created", "creation date", "date created"]
  | .resolved => ["resolved", "resolution date", "date resolved", "closed"]
  | .sprints => ["sprint", "sprints", "sprint name"]
  | .originTicketType => ["origin ticket type", "origin type", "original type"]

/-- `possibleNames.some(name => header.includes(name))` on one header. -/
def headerMatches (h : String) (f : JField) : Bool :=
  (synonymsOf f).any (fun n => strContains h n)

/-- `createColumnMapping` per field: `headers.findIndex(header =>
possibleNames.some(...))`, recorded only when found — the per-field scans
are independent of each other. -/
def createColumnMapping (headers : List String) (f : JField) : Option ℕ :=
  firstIdx (fun h => headerMatches h f) headers

theorem firstIdx_eq_some_iff {α : Type} (p : α → Bool) :
    ∀ (l : List α) (i : ℕ),
      firstIdx p l = some i ↔
        ((∃ a, l.get? i = some a ∧ p a = true) ∧
          ∀ j, j < i → ∀ a, l.get? j = some a → p a = false) := by
  intro l
  induction l with
  | nil =>
    intro i
    simp [firstIdx]
  | cons x xs ih =>
    intro i
    rcases hp : p x with _ | _
    · constructor
      · intro h
        simp only [firstIdx, hp, Bool.false_eq_true, if_false, Option.map_eq_some'] at h
        obtain ⟨i0, hi0, hplus⟩ := h
        subst hplus
        obtain ⟨⟨a, ha, hpa⟩, hbefore⟩ := (ih i0).mp hi0
        refine ⟨⟨a, by simpa using ha, hpa⟩, ?_⟩
        intro j hj b hb
        cases j with
        | zero =>
          simp only [List.get?] at hb
          cases hb
          exact hp
        | succ j0 =>
          simp only [List.get?] at hb
          exact hbefore j0 (by omega) b hb
      · intro ⟨⟨a, ha, hpa⟩, hbefore⟩
        cases i with
        | zero =>
          simp only [List.get?] at ha
          cases ha
          rw [hpa] at hp
          cases hp
        | succ i0 =>
          simp only [firstIdx, hp, Bool.false_eq_true, if_false, Option.map_eq_some']
          refine ⟨i0, ?_, rfl⟩
          apply (ih i0).mpr
          refine ⟨⟨a, by simpa using ha, hpa⟩, ?_⟩
          intro j hj b hb
          exact hbefore (j + 1) (by omega) b (by simpa using hb)
    · constructor
      · intro h
        simp only [firstIdx, hp, if_true, Option.some_inj] at h
        subst h
        exact ⟨⟨x, rfl, hp⟩, by intro j hj; omega⟩
      · intro ⟨⟨a, ha, hpa⟩, hbefore⟩
        cases i with
        | zero => simp [firstIdx, hp]
        | succ i0 =>
          have := hbefore 0 (by omega) x rfl
          rw [this] at hp
          cases hp

/-! ### General list lemmas for the claims -/

theorem length_filter_partition {α : Type} (l : List α) (p : α → Bool) :
    l.length = (l.filter p).length + (l.filter (fun a => !(p a))).length := by
  induction l with
  | nil => rfl
  | cons x xs ih =>
    rcases hp : p x with _ | _
    · rw [List.filter_cons_of_neg (by simp [hp]), List.filter_cons_of_pos (by simp [hp])]
      simp only [List.length_cons, ih]
      omega
    · rw [List.filter_cons_of_pos (by simp [hp]), List.filter_cons_of_neg (by simp [hp])]
      simp only [List.length_cons, ih]
      omega

theorem eq_of_sorted_of_perm {α : Type} {r : α → α → Prop} :
    ∀ {l1 l2 : List α}, l1.Perm l2 → l1.Sorted r → l2.Sorted r →
      (∀ a ∈ l1, ∀ b ∈ l1, r a b → r b a → a = b) → l1 = l2 := by
  intro l1
  induction l1 with
  | nil =>
    intro l2 hp _ _ _
    exact List.Perm.nil_eq hp
  | cons a t1 ih =>
    intro l2 hp hs1 hs2 hanti
    cases l2 with
    | nil => exact absurd hp.symm (by simp)
    | cons b t2 =>
      have hab : a = b := by
        by_cases h : a = b
        · exact h
        · have hbmem : b ∈ a :: t1 := hp.mem_iff.mpr (List.mem_cons_self b t2)
          have hamem : a ∈ b :: t2 := hp.mem_iff.mp (List.mem_cons_self a t1)
          have hbt1 : b ∈ t1 := by
            rcases List.mem_cons.mp hbmem with h1 | h1
            · exact absurd h1.symm h
            · exact h1
          have hat2 : a ∈ t2 := by
            rcases List.mem_cons.mp hamem with h1 | h1
            · exact absurd h1 h
            · exact h1
          have hrab : r a b := (List.sorted_cons.mp hs1).1 b hbt1
          have hrba : r b a := (List.sorted_cons.mp hs2).1 a hat2
          exact hanti a (List.mem_cons_self a t1) b hbmem hrab hrba
      subst hab
      have htp : t1.Perm t2 := (List.perm_cons a).mp hp
      have ht1 := (List.sorted_cons.mp hs1).2
      have ht2 := (List.sorted_cons.mp hs2).2
      have hanti2 : ∀ x ∈ t1, ∀ y ∈ t1, r x y → r y x → x = y := by
        intro x hx y hy
        exact hanti x (List.mem_cons_of_mem a hx) y (List.mem_cons_of_mem a hy)
      exact congrArg (a :: ·) (ih htp ht1 ht2 hanti2)

theorem trendPoints_prefix (bugs : List ProcessedTicket) :
    ∀ (months : List String) (cum : ℤ) (i : ℕ)
      (h : i < (InsightsEngine.trendPoints bugs cum months).length),
      ((InsightsEngine.trendPoints bugs cum months).get ⟨i, h⟩).cumulativeOpen =
        max 0 (cum +
          (((InsightsEngine.trendPoints bugs cum months).take (i + 1)).map
            (fun p => (p.created : ℤ) - (p.closed : ℤ))).sum) := by
  intro months
  induction months with
  | nil => intro cum i h; simp [InsightsEngine.trendPoints] at h
  | cons k ks ih =>
    intro cum i h
    cases i with
    | zero =>
      simp only [InsightsEngine.trendPoints, List.get, List.take, List.map, List.sum_cons,
        List.take_zero, List.map_nil, List.sum_nil, add_zero]
      congr 1
      ring
    | succ i0 =>
      simp only [InsightsEngine.trendPoints, List.length_cons] at h
      have h0 : i0 < (InsightsEngine.trendPoints bugs
          (cum + (InsightsEngine.createdCountIn bugs k : ℤ) -
            (InsightsEngine.closedCountIn bugs k : ℤ)) ks).length := by
        simpa using Nat.lt_of_succ_lt_succ h
      have hrec := ih (cum + (InsightsEngine.createdCountIn bugs k : ℤ) -
        (InsightsEngine.closedCountIn bugs k : ℤ)) i0 h0
      simp only [InsightsEngine.trendPoints, List.get, List.take, List.map, List.sum_cons]
      rw [hrec]
      congr 1
      ring

/-! ### Specification-side definitions and concrete fixtures -/

/-- The duration formula exactly as the specification words it:
`ceil((resolvedDate - createdDate) in days)`, clamped to be nonnegative. -/
def specClampedDuration (createdMs resolvedMs : ℤ) : ℤ :=
  max 0 (jsCeilDay (resolvedMs - createdMs))

/-- The escaped-bug condition exactly as the specification words it:
bug-typed, `originTicketType` present, and its lower-cased value contains
at least one indicator substring. -/
def specEscapedBug (t : RawTicketU) : Prop :=
  jsToLower t.issueType = "bug" ∧
    ∃ o, t.originTicketType = some o ∧
      ∃ ind ∈ Worker.escapedBugIndicators, strContains (jsToLower o) ind = true

/-- The cumulative-open recurrence exactly as the claim words it: the first
point is `max 0 (created - closed)`, and each later point is
`max 0 (previous displayed point + created - closed)`. -/
def specTrendRecurrence (pts : List InsightsEngine.MonthlyBugTrend) : Prop :=
  (∀ h0 : 0 < pts.length,
    (pts.get ⟨0, h0⟩).cumulativeOpen =
      max 0 (((pts.get ⟨0, h0⟩).created : ℤ) - ((pts.get ⟨0, h0⟩).closed : ℤ))) ∧
  (∀ i, ∀ h : i + 1 < pts.length,
    (pts.get ⟨i + 1, h⟩).cumulativeOpen =
      max 0 ((pts.get ⟨i, by omega⟩).cumulativeOpen +
        ((pts.get ⟨i + 1, h⟩).created : ℤ) - ((pts.get ⟨i + 1, h⟩).closed : ℤ)))

/-- Shared fixture instant. -/
def baseJD : JDate := ⟨2024, 1, 1, 1704067200000⟩

/-- Ticket resolved four days before it was created. -/
def exC1 : RawTicketU :=
  ⟨"PROJ-1", "Backwards resolution", "Story", "Done", none, none,
    ⟨2024, 1, 5, 345600000⟩, some ⟨2024, 1, 1, 0⟩, [], none⟩

/-- Bug created in March 2024 but resolved the previous January. -/
def bugC2 : ProcessedTicket :=
  ⟨"BUG-1", "Bug", "Bug", "Done", none, 0, ⟨2024, 3, 15, 1710460800000⟩,
    some ⟨2024, 1, 10, 1704844800000⟩, some 0, 0, false, 3⟩

/-- Bug whose origin type matches none of the indicator substrings. -/
def exC3 : RawTicketU :=
  ⟨"BUG-2", "Maybe escaped", "Bug", "Open", none, none, baseJD, none, [], some "Internal Dev"⟩

/-- Bug whose origin type is "UAT". -/
def exC3w : RawTicketU :=
  ⟨"BUG-3", "Escaped", "Bug", "Open", none, none, baseJD, none, [], some "UAT"⟩

/-- Grouping fixtures that tie on both ranking metrics. -/
def eC4a : Epic := ⟨"EPIC-A", "Alpha", 5, 20, 3⟩

/-- Second grouping of the tie, with the alphabetically larger key. -/
def eC4z : Epic := ⟨"EPIC-Z", "Zeta", 5, 20, 3⟩

/-- Raw ticket with a negative story-points value. -/
def exC5 : RawTicketU :=
  ⟨"PROJ-2", "Negative points", "Story", "Open", none, some (-2), baseJD, none, [], none⟩

/-- Epic-typed processed ticket. -/
def exEpicT : ProcessedTicket :=
  ⟨"EPIC-1", "Epic one", "Epic", "In Progress", none, 0, baseJD, none, none, 0, false, 8⟩

/-- Member of `EPIC-1` whose status is `Resolved`. -/
def exMemberR : ProcessedTicket :=
  ⟨"PROJ-3", "Member", "Story", "Resolved", some "EPIC-1", 0, baseJD, none, none, 0, false, 6⟩

/-- Ticket with no resolution and hence no duration. -/
def tW9 : ProcessedTicket :=
  ⟨"PROJ-4", "Open ticket", "Story", "Open", none, 0, baseJD, none, none, 1, false, 11⟩

/-- Header row in which `"parent key"` precedes `"key"`. -/
def headersC8 : List String :=
  ["parent key", "key", "summary", "issue type", "status", "created"]

/-! ### Claim theorems -/

/-- Claim C1, counterexample: a ticket resolved 4 days before creation gets
duration 4 from `DataTransformationUtils.calculateDuration` (absolute
difference), not the 0 the claim requires. -/
theorem C1_counterexample :
    (DataTransformationUtils.transformTicket exC1).duration = some 4 ∧
      specClampedDuration 345600000 0 = 0 ∧
      ¬((DataTransformationUtils.transformTicket exC1).duration =
          some (specClampedDuration 345600000 0)) := by
  decide

/-- Claim C1, amended: with a resolved date the worker computes exactly the
claimed clamped ceiling, while `DataTransformationUtils.calculateDuration`
computes the ceiling of the absolute difference — equal to the claimed
value when resolved is not earlier than created, but at least 1 (never 0)
when resolved precedes created; without a resolved date the duration is
undefined in both. -/
theorem C1_amended :
    ∀ (t : RawTicketU) (c r : ℤ),
      (t.resolved = none → (DataTransformationUtils.transformTicket t).duration = none) ∧
      (∀ d, t.resolved = some d →
        (DataTransformationUtils.transformTicket t).duration =
          some (DataTransformationUtils.calculateDuration t.created.time d.time)) ∧
      (c ≤ r → DataTransformationUtils.calculateDuration c r = specClampedDuration c r) ∧
      (r < c →
        1 ≤ DataTransformationUtils.calculateDuration c r ∧ specClampedDuration c r = 0) ∧
      Worker.calculateDuration c none = none ∧
      (∀ r2 : ℤ, Worker.calculateDuration c (some r2) = some (specClampedDuration c r2)) := by
  intro t c r
  refine ⟨?_, ?_, ?_, ?_, rfl, fun r2 => rfl⟩
  · intro h
    simp [DataTransformationUtils.transformTicket, h]
  · intro d h
    simp [DataTransformationUtils.transformTicket, h]
  · intro h
    unfold DataTransformationUtils.calculateDuration specClampedDuration
    rw [abs_of_nonneg (by omega : (0 : ℤ) ≤ r - c)]
    rw [max_eq_right (jsCeilDay_nonneg (by omega))]
  · intro h
    constructor
    · unfold DataTransformationUtils.calculateDuration
      rw [abs_of_neg (by omega : r - c < 0)]
      have := jsCeilDay_pos (by omega : (0 : ℤ) < -(r - c))
      omega
    · unfold specClampedDuration
      rw [max_eq_left (jsCeilDay_nonpos (by omega))]

/-- Claim C1, witness: the amended statement evaluated on concrete
instants on both sides of the created date. -/
theorem C1_witness :
    DataTransformationUtils.calculateDuration 0 86400001 = specClampedDuration 0 86400001 ∧
      (1 ≤ DataTransformationUtils.calculateDuration 86400001 0 ∧
        specClampedDuration 86400001 0 = 0) ∧
      (DataTransformationUtils.transformTicket exC1).duration =
        some (DataTransformationUtils.calculateDuration 345600000 0) :=
  ⟨(C1_amended exC1 0 86400001).2.2.1 (by decide),
    (C1_amended exC1 86400001 0).2.2.2.1 (by decide),
    (C1_amended exC1 0 0).2.1 ⟨2024, 1, 1, 0⟩ (by decide)⟩

/-- Claim C5, counterexample: a raw story-points value of −2 passes through
`transformTicket` (`storyPoints || 0`) unclamped, where the claim requires
0. -/
theorem C5_counterexample :
    (DataTransformationUtils.transformTicket exC5).storyPoints = -2 ∧
      ¬((DataTransformationUtils.transformTicket exC5).storyPoints = 0) := by
  decide

/-- Claim C5, amended: the derived storyPoints equals the raw value
whenever present — negative values included — and 0 when absent; the
separate `normalizeStoryPoints` helper clamps exactly as the claim states,
but `transformTicket` does not call it. -/
theorem C5_amended :
    ∀ (t : RawTicketU) (q : ℚ),
      (DataTransformationUtils.transformTicket t).storyPoints = t.storyPoints.getD 0 ∧
      DataTransformationUtils.normalizeStoryPoints (some q) = max q 0 ∧
      DataTransformationUtils.normalizeStoryPoints none = 0 := by
  intro t q
  refine ⟨?_, ?_, rfl⟩
  · show jsOrZero t.storyPoints = t.storyPoints.getD 0
    unfold jsOrZero
    rcases t.storyPoints with _ | q0
    · rfl
    · by_cases h : q0 = 0 <;> simp [h]
  · unfold DataTransformationUtils.normalizeStoryPoints
    rcases lt_or_ge q 0 with h | h
    · simp [h, max_eq_right (le_of_lt h)]
    · simp [not_lt_of_ge h, max_eq_left h]

/-- Claim C5, witness: the amended statement evaluated on the concrete
negative-points ticket and a concrete negative normalization input. -/
theorem C5_witness :
    (DataTransformationUtils.transformTicket exC5).storyPoints = exC5.storyPoints.getD 0 ∧
      DataTransformationUtils.normalizeStoryPoints (some (-5)) = max (-5) 0 ∧
      DataTransformationUtils.normalizeStoryPoints none = 0 :=
  C5_amended exC5 (-5)

/-- Claim C8, counterexample: with `"parent key"` in front of `"key"`, the
independent per-field scans assign header 0 to `key`, `parent` and
`parentKey` simultaneously, so a header position is not claimed by at most
one canonical field. -/
theorem C8_counterexample :
    createColumnMapping headersC8 JField.key = some 0 ∧
      createColumnMapping headersC8 JField.parent = some 0 ∧
      createColumnMapping headersC8 JField.parentKey = some 0 ∧
      JField.key ≠ JField.parent := by
  decide

/-- Claim C8, amended: each canonical field is assigned the first header
containing one of its synonyms and later headers never override it, but
the per-field scans are independent, so several fields may share one
header position (the mapping need not be injective). -/
theorem C8_amended :
    ∀ (headers : List String) (f : JField) (i : ℕ),
      createColumnMapping headers f = some i ↔
        ((∃ h, headers.get? i = some h ∧ headerMatches h f = true) ∧
          ∀ j, j < i → ∀ h, headers.get? j = some h → headerMatches h f = false) :=
  fun headers f i => firstIdx_eq_some_iff (fun h => headerMatches h f) headers i

/-- Claim C8, witness: the amended characterization applied to the
concrete header row at the `summary` field. -/
theorem C8_witness :
    (∃ h, headersC8.get? 2 = some h ∧ headerMatches h JField.summary = true) ∧
      ∀ j, j < 2 → ∀ h, headersC8.get? j = some h →
        headerMatches h JField.summary = false :=
  (C8_amended headersC8 JField.summary 2).mp (by decide)

/-- Claim C10, confirmed: in both bug-statistics blocks the closed and the
open counts partition the respective bug subset, so
totalCreated = totalClosed + totalOpen. -/
theorem C10_theorem :
    ∀ l : List ProcessedTicket,
      (InsightsEngine.generateBugInsights l).allBugStats.totalCreated =
        (InsightsEngine.generateBugInsights l).allBugStats.totalClosed +
          (InsightsEngine.generateBugInsights l).allBugStats.totalOpen ∧
      (InsightsEngine.generateBugInsights l).escapedBugStats.totalCreated =
        (InsightsEngine.generateBugInsights l).escapedBugStats.totalClosed +
          (InsightsEngine.generateBugInsights l).escapedBugStats.totalOpen := by
  intro l
  constructor
  · exact length_filter_partition (l.filter (fun t => jsToLower t.issueType == "bug"))
      (fun b => InsightsEngine.isTicketClosed b.status)
  · exact length_filter_partition (l.filter (fun t => t.isEscapedBug))
      (fun b => InsightsEngine.isTicketClosed b.status)

/-- Claim C2, counterexample: for a bug resolved before it was created the
engine's series is [(Jan: 0 created, 1 closed, shown 0), (Mar: 1 created,
0 closed, shown 0)] — the hidden running total (−1) carries into March, so
the second point violates the claimed recurrence
max(0, previous shown + created − closed) = 1. -/
theorem C2_counterexample :
    ¬ specTrendRecurrence (InsightsEngine.calculateMonthlyBugTrends [bugC2]) := by
  intro hcl
  have h2 := hcl.2 0 (by decide)
  exact absurd h2 (by decide)

/-- Claim C2, amended: each displayed cumulativeOpen equals
max(0, unclamped running total of (created − closed) up to that month) —
the accumulator carries the unclamped (possibly negative) balance forward,
and only each point's own displayed value is floored at 0.  The claimed
per-point recurrence holds only while the running total stays
nonnegative. -/
theorem C2_amended :
    ∀ (bugs : List ProcessedTicket) (i : ℕ) (p : InsightsEngine.MonthlyBugTrend),
      (InsightsEngine.calculateMonthlyBugTrends bugs).get? i = some p →
      p.cumulativeOpen =
        max 0 ((((InsightsEngine.calculateMonthlyBugTrends bugs).take (i + 1)).map
          (fun q => (q.created : ℤ) - (q.closed : ℤ))).sum) := by
  intro bugs i p h
  obtain ⟨hlt, hget⟩ := List.get?_eq_some.mp h
  rw [← hget]
  have hh := trendPoints_prefix bugs
    (List.insertionSort InsightsEngine.strLeP (InsightsEngine.monthKeysOf bugs)) 0 i hlt
  simpa [InsightsEngine.calculateMonthlyBugTrends] using hh

/-- Claim C2, witness: the amended prefix-sum identity evaluated at the
second point of the concrete two-month series. -/
theorem C2_witness :
    (⟨"March", 2024, 1, 0, 0⟩ : InsightsEngine.MonthlyBugTrend).cumulativeOpen =
      max 0 ((((InsightsEngine.calculateMonthlyBugTrends [bugC2]).take 2).map
        (fun q => (q.created : ℤ) - (q.closed : ℤ))).sum) :=
  C2_amended [bugC2] 1 ⟨"March", 2024, 1, 0, 0⟩ (by decide)

/-- Claim C3, counterexample: a bug whose originTicketType is
"Internal Dev" — matching no indicator substring — is still classified as
escaped by `DataTransformationUtils.isEscapedBug`, contradicting the
claimed iff. -/
theorem C3_counterexample :
    DataTransformationUtils.isEscapedBug exC3 = true ∧ ¬ specEscapedBug exC3 := by
  constructor
  · decide
  · rintro ⟨h1, o, ho, ind, hind, hc⟩
    have ho2 : o = "Internal Dev" := by
      have hx : some "Internal Dev" = some o := by
        rw [show exC3.originTicketType = some "Internal Dev" from rfl] at ho
        exact ho
      exact (Option.some.inj hx).symm
    subst ho2
    have hall : ∀ i ∈ Worker.escapedBugIndicators,
        strContains (jsToLower "Internal Dev") i = false := by decide
    rw [hall ind hind] at hc
    cases hc

/-- Claim C3, amended: the worker's `isEscapedBugTicket` satisfies the
claimed characterization exactly (bug-typed, origin present, lower-cased
origin contains an indicator substring), but
`DataTransformationUtils.isEscapedBug` tests only that the origin is
present with a non-blank trim, with no indicator filtering. -/
theorem C3_amended :
    ∀ t : RawTicketU,
      (Worker.isEscapedBugTicket t = true ↔ specEscapedBug t) ∧
      (DataTransformationUtils.isEscapedBug t = true ↔
        (jsToLower t.issueType = "bug" ∧
          ∃ o, t.originTicketType = some o ∧ jsTrim o ≠ "")) := by
  intro t
  constructor
  · unfold Worker.isEscapedBugTicket specEscapedBug
    rcases hb : (jsToLower t.issueType == "bug") with _ | _
    · simp only [hb, Bool.not_false, if_true]
      constructor
      · intro h
        cases h
      · rintro ⟨h1, -⟩
        rw [h1] at hb
        simp at hb
    · have hb2 : jsToLower t.issueType = "bug" := by simpa using hb
      simp only [hb, Bool.not_true, Bool.false_eq_true, if_false]
      rcases hor : t.originTicketType with _ | o
      · constructor
        · intro h
          cases h
        · rintro ⟨-, o, ho, -⟩
          exact Option.noConfusion ho
      · simp only
        rcases hol : (jsToLower o == "") with _ | _
        · simp only [hol, Bool.false_eq_true, if_false]
          rw [List.any_eq_true]
          constructor
          · rintro ⟨ind, hind, hc⟩
            exact ⟨hb2, o, rfl, ind, hind, hc⟩
          · rintro ⟨-, o2, ho2, ind, hind, hc⟩
            have heq : o2 = o := (Option.some.inj ho2).symm
            subst heq
            exact ⟨ind, hind, hc⟩
        · have hole : jsToLower o = "" := by simpa using hol
          simp only [hol, if_true]
          constructor
          · intro h
            cases h
          · rintro ⟨-, o2, ho2, ind, hind, hc⟩
            have heq : o2 = o := (Option.some.inj ho2).symm
            subst heq
            rw [hole] at hc
            have hall : ∀ i ∈ Worker.escapedBugIndicators, strContains "" i = false := by
              decide
            rw [hall ind hind] at hc
            cases hc
  · unfold DataTransformationUtils.isEscapedBug
    rcases hb : (jsToLower t.issueType == "bug") with _ | _
    · simp only [hb, Bool.false_and]
      constructor
      · intro h
        cases h
      · rintro ⟨h1, -⟩
        rw [h1] at hb
        simp at hb
    · have hb2 : jsToLower t.issueType = "bug" := by simpa using hb
      simp only [hb, Bool.true_and]
      rcases hor : t.originTicketType with _ | o
      · constructor
        · intro h
          cases h
        · rintro ⟨-, o, ho, -⟩
          exact Option.noConfusion ho
      · simp only
        constructor
        · intro h
          refine ⟨hb2, o, rfl, ?_⟩
          intro he
          rw [he] at h
          simp at h
        · rintro ⟨-, o2, ho2, hne⟩
          have heq : o2 = o := (Option.some.inj ho2).symm
          subst heq
          simpa using hne

/-- Claim C3, witness: the amended characterizations applied to the
concrete "UAT"-origin bug (worker side) and to the same ticket on the
utils side. -/
theorem C3_witness :
    Worker.isEscapedBugTicket exC3w = true ∧
      DataTransformationUtils.isEscapedBug exC3w = true :=
  ⟨((C3_amended exC3w).1).mpr ⟨by decide, "UAT", rfl, "uat", by decide, by decide⟩,
    ((C3_amended exC3w).2).mpr ⟨by decide, "UAT", rfl, by decide⟩⟩

/-- Claim C9, confirmed: `generateTicketInsights` fails exactly on the
empty ticket set, and on a non-empty set in which no ticket has a defined
duration it succeeds with a null longest-duration result (the other
lookups are present in the returned record). -/
theorem C9_theorem :
    ∀ l : List ProcessedTicket,
      ((∃ msg, InsightsEngine.generateTicketInsights l = Except.error msg) ↔ l = []) ∧
      (l ≠ [] → (∀ t ∈ l, t.duration = none) →
        ∃ r, InsightsEngine.generateTicketInsights l = Except.ok r ∧
          r.longestDuration = none) := by
  intro l
  cases l with
  | nil =>
    constructor
    · constructor
      · intro _
        rfl
      · intro _
        exact ⟨"No tickets available for analysis", rfl⟩
    · intro h
      exact absurd rfl h
  | cons t ts =>
    constructor
    · constructor
      · rintro ⟨msg, hmsg⟩
        simp [InsightsEngine.generateTicketInsights] at hmsg
      · intro h
        simp at h
    · intro _ hdur
      refine ⟨_, rfl, ?_⟩
      show InsightsEngine.findLongestDurationTicket (t :: ts) = none
      unfold InsightsEngine.findLongestDurationTicket
      have hfil : (t :: ts).filter (fun x => x.duration.isSome) = [] := by
        rw [List.filter_eq_nil_iff]
        intro a ha
        simp [hdur a ha]
      rw [hfil]

/-- Claim C9, witness: the non-empty no-duration branch evaluated on a
concrete single unresolved ticket. -/
theorem C9_witness :
    ∃ r, InsightsEngine.generateTicketInsights [tW9] = Except.ok r ∧
      r.longestDuration = none :=
  (C9_theorem [tW9]).2 (by decide) (by decide)

/-- Claim C6, counterexample: a member with status "Resolved" is counted
into its grouping (ticketCount 1) but does not increment
`completedTickets` in `DataTransformationUtils.buildEpics`, although
"resolved" is in the claimed closed-status set (as the worker's
`isTicketCompleted` confirms). -/
theorem C6_counterexample :
    ((DataTransformationUtils.buildEpics [exEpicT, exMemberR]).map
        (fun e => (e.ticketCount, e.completedTickets))) = [(1, 0)] ∧
      Worker.isTicketCompleted "Resolved" = true ∧
      ¬(((DataTransformationUtils.buildEpics [exEpicT, exMemberR]).map
          (fun e => e.completedTickets)) = [1]) := by
  decide

/-- Claim C6, amended: in `DataTransformationUtils.buildEpics` a member
increments its grouping's completedTickets iff its lower-cased status is
"done" or "closed" — "resolved" does not count there — while the worker's
`isTicketCompleted` accepts exactly done/closed/resolved. -/
theorem C6_amended :
    ∀ (ts : List ProcessedTicket) (k : String) (e0 : Epic),
      k ≠ "" → lookupE (DataTransformationUtils.pass1Map ts) k = some e0 →
      (∃ e, lookupE (DataTransformationUtils.buildEpicsMap ts) k = some e ∧
        e.completedTickets = e0.completedTickets +
          ((ts.filter (fun t => t.parent == some k)).filter
            (fun t => jsToLower t.status == "done" || jsToLower t.status == "closed")).length) ∧
      (∀ s, Worker.isTicketCompleted s = true ↔
        jsToLower s ∈ (["done", "closed", "resolved"] : List String)) := by
  intro ts k e0 hk h
  constructor
  · have hfold := @lookupE_aggfold_some DataTransformationUtils.pass2Step
      DataTransformationUtils.updEpic (fun m t => rfl) ts
      (DataTransformationUtils.pass1Map ts) k e0 hk h
    exact ⟨List.foldl DataTransformationUtils.updEpic e0
        (List.filter (fun t => t.parent == some k) ts), hfold,
      foldl_updEpic_completed (List.filter (fun t => t.parent == some k) ts) e0⟩
  · intro s
    simp [Worker.isTicketCompleted]

/-- Claim C6, witness: the amended statement evaluated on the concrete
epic with its single "Resolved" member. -/
theorem C6_witness :
    (∃ e, lookupE (DataTransformationUtils.buildEpicsMap [exEpicT, exMemberR]) "EPIC-1" =
        some e ∧
      e.completedTickets = (⟨"EPIC-1", "Epic one", 0, 0, 0⟩ : Epic).completedTickets +
        (([exEpicT, exMemberR].filter (fun t => t.parent == some "EPIC-1")).filter
          (fun t =>
            jsToLower t.status == "done" || jsToLower t.status == "closed")).length) ∧
      (∀ s, Worker.isTicketCompleted s = true ↔
        jsToLower s ∈ (["done", "closed", "resolved"] : List String)) :=
  C6_amended [exEpicT, exMemberR] "EPIC-1" ⟨"EPIC-1", "Epic one", 0, 0, 0⟩
    (by decide) (by decide)

/-- Claim C7, counterexample: an epic-typed ticket nothing references as a
parent stays in `DataTransformationUtils.buildEpics`' output with
ticketCount 0 — this implementation exposes zero-count groupings. -/
theorem C7_counterexample :
    (DataTransformationUtils.buildEpics [exEpicT]).map (fun e => (e.key, e.ticketCount)) =
        [("EPIC-1", 0)] ∧
      ¬((DataTransformationUtils.buildEpics [exEpicT]).all
          (fun e => decide (0 < e.ticketCount)) = true) := by
  decide

/-- Claim C7, amended: the worker's `buildEpicAggregations` does filter its
output to groupings with ticketCount > 0, but
`DataTransformationUtils.buildEpics` returns every grouping, including
those never referenced as a parent (ticketCount 0). -/
theorem C7_amended :
    ∀ (pts : List ProcessedTicket) (rts : List RawTicketU),
      (Worker.buildEpicAggregations pts rts).all (fun e => decide (0 < e.ticketCount)) = true := by
  intro pts rts
  rw [List.all_eq_true]
  intro e he
  simp only [Worker.buildEpicAggregations] at he
  exact (List.mem_filter.mp he).2

/-- Claim C7, witness: the worker filter evaluated on the concrete epic
with one member. -/
theorem C7_witness :
    (Worker.buildEpicAggregations [exEpicT, exMemberR] []).all
      (fun e => decide (0 < e.ticketCount)) = true :=
  C7_amended [exEpicT, exMemberR] []

theorem pairwise_key_ne {l : List Epic} (h : l.Pairwise (fun a b => a.key ≠ b.key)) :
    ∀ a ∈ l, ∀ b ∈ l, a ≠ b → a.key ≠ b.key := by
  induction l with
  | nil => intro a ha; cases ha
  | cons x xs ih =>
    have hx := (List.pairwise_cons.mp h).1
    have hxs := (List.pairwise_cons.mp h).2
    intro a ha b hb hne
    rcases List.mem_cons.mp ha with rfl | ha2
    · rcases List.mem_cons.mp hb with rfl | hb2
      · exact absurd rfl hne
      · exact hx b hb2
    · rcases List.mem_cons.mp hb with rfl | hb2
      · exact Ne.symm (hx a ha2)
      · exact ih hxs a ha2 b hb2 hne

theorem leTick_key_eq {a b : Epic}
    (h1 : InsightsEngine.epicLeByCount a b) (h2 : InsightsEngine.epicLeByCount b a) :
    a.key = b.key := by
  rcases h1 with h1 | ⟨h1e, h1k⟩
  · rcases h2 with h2 | ⟨h2e, h2k⟩
    · omega
    · omega
  · rcases h2 with h2 | ⟨h2e, h2k⟩
    · omega
    · exact strLe_antisymm h1k h2k

theorem leSP_key_eq {a b : Epic}
    (h1 : InsightsEngine.epicLeBySP a b) (h2 : InsightsEngine.epicLeBySP b a) :
    a.key = b.key := by
  rcases h1 with h1 | ⟨h1e, h1k⟩
  · rcases h2 with h2 | ⟨h2e, h2k⟩
    · exact absurd h1 (lt_asymm h2)
    · rw [h2e] at h1
      exact absurd h1 (lt_irrefl _)
  · rcases h2 with h2 | ⟨h2e, h2k⟩
    · rw [h1e] at h2
      exact absurd h2 (lt_irrefl _)
    · exact strLe_antisymm h1k h2k

theorem rank_sort_perm_eq {r : Epic → Epic → Prop} [DecidableRel r]
    [IsTotal Epic r] [IsTrans Epic r]
    (hks : ∀ a b : Epic, r a b → r b a → a.key = b.key)
    {l1 l2 : List Epic} (hp : l1.Perm l2)
    (hpw : l1.Pairwise (fun a b => a.key ≠ b.key)) :
    List.insertionSort r l1 = List.insertionSort r l2 := by
  apply eq_of_sorted_of_perm
    ((List.perm_insertionSort r l1).trans (hp.trans (List.perm_insertionSort r l2).symm))
    (List.sorted_insertionSort r l1) (List.sorted_insertionSort r l2)
  intro a ha b hb hab hba
  by_cases hne : a = b
  · exact hne
  · have ha1 : a ∈ l1 := (List.perm_insertionSort r l1).mem_iff.mp ha
    have hb1 : b ∈ l1 := (List.perm_insertionSort r l1).mem_iff.mp hb
    exact absurd (hks a b hab hba) (pairwise_key_ne hpw a ha1 b hb1 hne)

theorem rank_tie_count {l : List Epic} (hpw : l.Pairwise (fun a b => a.key ≠ b.key)) :
    (InsightsEngine.rankEpicsByTicketCount l).Pairwise
      (fun a b => a.ticketCount = b.ticketCount → strLt a.key b.key = true) := by
  have hs : (List.insertionSort InsightsEngine.epicLeByCount l).Pairwise
      InsightsEngine.epicLeByCount :=
    List.sorted_insertionSort InsightsEngine.epicLeByCount l
  have hkp : (List.insertionSort InsightsEngine.epicLeByCount l).Pairwise
      (fun a b : Epic => a.key ≠ b.key) :=
    ((List.perm_insertionSort InsightsEngine.epicLeByCount l).pairwise_iff
      (fun h => Ne.symm h)).mpr hpw
  have hcomb := hs.and hkp
  have himp : (List.insertionSort InsightsEngine.epicLeByCount l).Pairwise
      (fun a b => a.ticketCount = b.ticketCount → strLt a.key b.key = true) := by
    refine hcomb.imp ?_
    intro a b ⟨hr, hk⟩ hc
    rcases hr with hr | ⟨hre, hrk⟩
    · omega
    · exact strLt_of_le_of_ne hrk hk
  exact himp.sublist (List.take_sublist 3 _)

theorem rank_tie_sp {l : List Epic} (hpw : l.Pairwise (fun a b => a.key ≠ b.key)) :
    (InsightsEngine.rankEpicsByStoryPoints l).Pairwise
      (fun a b => a.totalStoryPoints = b.totalStoryPoints → strLt a.key b.key = true) := by
  have hs : (List.insertionSort InsightsEngine.epicLeBySP l).Pairwise
      InsightsEngine.epicLeBySP :=
    List.sorted_insertionSort InsightsEngine.epicLeBySP l
  have hkp : (List.insertionSort InsightsEngine.epicLeBySP l).Pairwise
      (fun a b : Epic => a.key ≠ b.key) :=
    ((List.perm_insertionSort InsightsEngine.epicLeBySP l).pairwise_iff
      (fun h => Ne.symm h)).mpr hpw
  have hcomb := hs.and hkp
  have himp : (List.insertionSort InsightsEngine.epicLeBySP l).Pairwise
      (fun a b => a.totalStoryPoints = b.totalStoryPoints → strLt a.key b.key = true) := by
    refine hcomb.imp ?_
    intro a b ⟨hr, hk⟩ hc
    rcases hr with hr | ⟨hre, hrk⟩
    · rw [hc] at hr
      exact absurd hr (lt_irrefl _)
    · exact strLt_of_le_of_ne hrk hk
  exact himp.sublist (List.take_sublist 3 _)

/-- Claim C4, confirmed: on grouping lists with pairwise-distinct keys both
top-3 rankings are invariant under permutation of the input, and in each
output two groupings that tie on the primary metric appear with the
alphabetically smaller key first. -/
theorem C4_theorem :
    ∀ l1 l2 : List Epic, l1.Perm l2 → l1.Pairwise (fun a b => a.key ≠ b.key) →
      InsightsEngine.rankEpicsByTicketCount l1 = InsightsEngine.rankEpicsByTicketCount l2 ∧
      InsightsEngine.rankEpicsByStoryPoints l1 = InsightsEngine.rankEpicsByStoryPoints l2 ∧
      (InsightsEngine.rankEpicsByTicketCount l1).Pairwise
        (fun a b => a.ticketCount = b.ticketCount → strLt a.key b.key = true) ∧
      (InsightsEngine.rankEpicsByStoryPoints l1).Pairwise
        (fun a b => a.totalStoryPoints = b.totalStoryPoints → strLt a.key b.key = true) := by
  intro l1 l2 hp hpw
  refine ⟨?_, ?_, rank_tie_count hpw, rank_tie_sp hpw⟩
  · unfold InsightsEngine.rankEpicsByTicketCount
    rw [rank_sort_perm_eq (fun a b h1 h2 => leTick_key_eq h1 h2) hp hpw]
  · unfold InsightsEngine.rankEpicsByStoryPoints
    rw [rank_sort_perm_eq (fun a b h1 h2 => leSP_key_eq h1 h2) hp hpw]

/-- Claim C4, witness: the ranking invariance and the tie-break evaluated
on a two-element permutation with tied metrics and distinct keys. -/
theorem C4_witness :
    InsightsEngine.rankEpicsByTicketCount [eC4z, eC4a] =
        InsightsEngine.rankEpicsByTicketCount [eC4a, eC4z] ∧
      InsightsEngine.rankEpicsByStoryPoints [eC4z, eC4a] =
        InsightsEngine.rankEpicsByStoryPoints [eC4a, eC4z] ∧
      (InsightsEngine.rankEpicsByTicketCount [eC4z, eC4a]).Pairwise
        (fun a b => a.ticketCount = b.ticketCount → strLt a.key b.key = true) ∧
      (InsightsEngine.rankEpicsByStoryPoints [eC4z, eC4a]).Pairwise
        (fun a b => a.totalStoryPoints = b.totalStoryPoints → strLt a.key b.key = true) :=
  C4_theorem [eC4z, eC4a] [eC4a, eC4z] (by decide) (by decide)
